import Mathlib

/-!
# Verification of the census client core (`src/census/core.py`)

A shallow embedding of the request-construction and response-normalization
pipeline of the census API client: field chunking and merging (`Client.get`),
query execution and status handling (`Client.query`), per-field type coercion
(`float_or_str`, `Client._field_type` with its `lru_cache`), the transient-error
retry wrapper (`retry_on_transient_error`), the year guard (`supported_years`),
and the ACS5 ZCTA geography encoding (`ACS5Client.state_zipcode`).

The HTTP session is modelled as a pure oracle mapping a request's determining
data (the joined `get` parameter, the `for` clause, the optional `in` clause and
the year) to a response.  Python `float` values are modelled as rationals, which
is exact for the plain decimal literals the API returns.  Python dicts with
string keys are modelled as association lists with unique keys in insertion
order.
-/

set_option autoImplicit false
set_option maxRecDepth 8000

universe u

/-- A typed cell value produced by the client's coercion functions
(`str`, `float`, `float_or_str`). -/
inductive Value : Type where
  | str (s : String)
  | float (q : ℚ)
  deriving DecidableEq, Repr

/-- The Python exceptions that `core.py` can raise (plus the `ValueError`
re-raised from `resp.json()` and from `float`, and `KeyError` from `x['GEO_ID']`).
`UnsupportedYearException` is a subclass of `CensusException` in the source. -/
inductive PyError : Type where
  | censusException (msg : String)
  | unsupportedYear (msg : String)
  | apiKeyError (msg : String)
  | jsonDecodeError
  | floatValueError (s : String)
  | keyError (k : String)
  deriving DecidableEq, Repr

/-- `str(e)` for the two exception classes caught by `except CensusException`. -/
def censusExceptionMsg : PyError → Option String
  | PyError.censusException m => some m
  | PyError.unsupportedYear m => some m
  | _ => none

/-- Decidable equality for `Except`, so concrete outcomes can be checked by
evaluation. -/
instance instDecidableEqExcept {ε : Type u} {α : Type u} [DecidableEq ε] [DecidableEq α] :
    DecidableEq (Except ε α) := fun x y =>
  match x, y with
  | Except.ok u, Except.ok v =>
      if h : u = v then isTrue (by rw [h]) else isFalse (by intro he; cases he; exact h rfl)
  | Except.error u, Except.error v =>
      if h : u = v then isTrue (by rw [h]) else isFalse (by intro he; cases he; exact h rfl)
  | Except.ok _, Except.error _ => isFalse (by intro he; cases he)
  | Except.error _, Except.ok _ => isFalse (by intro he; cases he)

/-- Digit test for decimal parsing. -/
def isDigitCh (c : Char) : Bool :=
  decide ('0' ≤ c) && decide (c ≤ '9')

/-- Value of a string of decimal digits. -/
def digitsVal (cs : List Char) : Nat :=
  cs.foldl (fun a c => 10 * a + (c.toNat - '0'.toNat)) 0

/-- Mantissa of a decimal literal as a numerator/denominator pair:
`digits`, `digits.digits`, `digits.` or `.digits`. -/
def parseMantissa (cs : List Char) : Option (Nat × Nat) :=
  let intPart := cs.takeWhile isDigitCh
  let rest := cs.drop intPart.length
  match rest with
  | [] => if intPart.isEmpty then none else some (digitsVal intPart, 1)
  | '.' :: frac =>
      if frac.all isDigitCh then
        if intPart.isEmpty && frac.isEmpty then none
        else some (digitsVal intPart * 10 ^ frac.length + digitsVal frac, 10 ^ frac.length)
      else none
  | _ => none

/-- A signed decimal integer (used for exponents). -/
def parseSignedInt (cs : List Char) : Option Int :=
  match cs with
  | '+' :: rest => if rest.isEmpty || !rest.all isDigitCh then none else some (digitsVal rest : Int)
  | '-' :: rest => if rest.isEmpty || !rest.all isDigitCh then none else some (-(digitsVal rest : Int))
  | rest => if rest.isEmpty || !rest.all isDigitCh then none else some (digitsVal rest : Int)

/-- An unsigned decimal literal with optional exponent. -/
def parseUnsignedFloat (cs : List Char) : Option ℚ :=
  let mant := cs.takeWhile (fun c => !(c == 'e') && !(c == 'E'))
  let rest := cs.drop mant.length
  match parseMantissa mant with
  | none => none
  | some nd =>
      match rest with
      | [] => some (mkRat nd.1 nd.2)
      | _ :: expCs =>
          match parseSignedInt expCs with
          | none => none
          | some e =>
              if 0 ≤ e then some (mkRat (nd.1 * 10 ^ e.toNat) nd.2)
              else some (mkRat nd.1 (nd.2 * 10 ^ (-e).toNat))

/-- Python `float(v)` on a string, returning `none` where Python raises
`ValueError`.  Modelled for plain decimal literals with optional sign and
exponent; `inf`/`nan`, underscores and surrounding whitespace are omitted
(the API's numeric strings are plain decimals). -/
def parsePyFloat (s : String) : Option ℚ :=
  match s.toList with
  | '+' :: rest => parseUnsignedFloat rest
  | '-' :: rest => (parseUnsignedFloat rest).map Neg.neg
  | rest => parseUnsignedFloat rest

/-- `float_or_str` from `core.py`: try `float(v)`; on `ValueError` return the
string unchanged. -/
def float_or_str (v : String) : Value :=
  match parsePyFloat v with
  | some q => Value.float q
  | none => Value.str v

/-- The three coercion functions that can appear in `Client._field_type`'s
`types` table: `str`, `float`, `float_or_str`. -/
inductive CastKind : Type where
  | castStr
  | castFloat
  | castFloatOrStr
  deriving DecidableEq, Repr

/-- Apply a coercion function to a raw string value.  `float` propagates the
`ValueError` of a failed parse; `str` and `float_or_str` never fail. -/
def applyCast : CastKind → String → Except PyError Value
  | CastKind.castStr, v => Except.ok (Value.str v)
  | CastKind.castFloatOrStr, v => Except.ok (float_or_str v)
  | CastKind.castFloat, v =>
      match parsePyFloat v with
      | some q => Except.ok (Value.float q)
      | none => Except.error (PyError.floatValueError v)

/-- `cast(item) if item is not None else None` (line 199): null cells pass
through untyped. -/
def castCell (c : CastKind) (item : Option String) : Except PyError (Option Value) :=
  match item with
  | none => Except.ok none
  | some s => (applyCast c s).map some

/-- The `types` dict of `Client._field_type` (lines 221-225), as a partial map
from the declared predicate type; `none` models the `KeyError` a lookup of an
unknown predicate type would raise. -/
def typesMap (predicateType : String) : Option CastKind :=
  if predicateType = "fips-for" then some CastKind.castStr
  else if predicateType = "fips-in" then some CastKind.castStr
  else if predicateType = "int" then some CastKind.castFloatOrStr
  else if predicateType = "float" then some CastKind.castFloat
  else if predicateType = "string" then some CastKind.castStr
  else none

example : float_or_str "1234" = Value.float 1234 := by decide
example : float_or_str "N" = Value.str "N" := by decide
example : parsePyFloat "12.5" = some (mkRat 25 2) := by decide
example : parsePyFloat "" = none := by decide

/-! ## String utilities (Python `in`, `str.splitlines`, tuple formatting) -/

/-- Does the second sequence start with the first? -/
def seqStartsWith {α : Type u} [DecidableEq α] : List α → List α → Bool
  | [], _ => true
  | _ :: _, [] => false
  | a :: as, b :: bs => decide (a = b) && seqStartsWith as bs

/-- Does the first sequence occur contiguously inside the second? -/
def seqOccursIn {α : Type u} [DecidableEq α] (needle : List α) : List α → Bool
  | [] => needle.isEmpty
  | b :: bs => seqStartsWith needle (b :: bs) || seqOccursIn needle bs

/-- Python `needle in haystack` on strings. -/
def strContains (haystack needle : String) : Bool :=
  seqOccursIn needle.toList haystack.toList

/-- Split a character list at newline characters (the separators dropped). -/
def splitAtNewlines : List Char → List (List Char)
  | [] => [[]]
  | c :: rest =>
      match splitAtNewlines rest with
      | [] => [[]]
      | line :: lines =>
          if c = '\n' then [] :: line :: lines else (c :: line) :: lines

/-- `' '.join(text.splitlines())` (line 193).  Modelled for `'\n'`-delimited
text without a trailing newline (where `splitlines` agrees with splitting on
`'\n'`). -/
def pySpaceJoinLines (text : String) : String :=
  String.intercalate " " ((splitAtNewlines text.toList).map (fun cs => String.mk cs))

/-- Python `str` of a tuple of ints (a trailing comma for a one-element
tuple), used by the `supported_years` error message. -/
def pyTupleRepr (ys : List Nat) : String :=
  match ys with
  | [] => "()"
  | [y] => "(" ++ Nat.repr y ++ ",)"
  | _ => "(" ++ String.intercalate ", " (ys.map Nat.repr) ++ ")"

/-! ## Python dicts with string keys

An association list with unique keys in insertion order; writing an existing
key updates its value in place, a new key is appended. -/

/-- Insert into a Python dict: update in place if the key exists, else append. -/
def dictInsert {β : Type u} (d : List (String × β)) (k : String) (v : β) : List (String × β) :=
  if d.any (fun p => p.1 == k) then d.map (fun p => if p.1 == k then (k, v) else p)
  else d ++ [(k, v)]

/-- `dict(pairs)`: build a dict from a sequence of key-value pairs
(later values win, the position of a key is its first occurrence). -/
def dictOfPairs {β : Type u} (ps : List (String × β)) : List (String × β) :=
  ps.foldl (fun d p => dictInsert d p.1 p.2) []

/-- A result row: a Python dict from header name to a typed value or null. -/
abbrev Row := List (String × Option Value)

/-- `merge` from `core.py` (lines 80-81):
`dict(item for d in dicts for item in d.items())`. -/
def merge (dicts : List Row) : Row :=
  dictOfPairs (dicts.flatMap (fun d => d))

/-! ## Chunking and positional merging (`chunks`, `zip(*...)`) -/

/-- `chunks` from `core.py` (lines 74-77):
`for i in range(0, len(l), n): yield l[i:i + n]` — `range(0, len, n)` has
`ceil(len/n)` elements `0, n, 2n, ...`, and `l[i:i+n]` is `(l.drop i).take n`.
(Python's `range` with step `0` raises `ValueError`; the function is only
invoked with `n = 49`.) -/
def pyChunks {α : Type u} (l : List α) (n : Nat) : List (List α) :=
  (List.range ((l.length + n - 1) / n)).map (fun j => (l.drop (j * n)).take n)

/-- Length of the shortest of a family of lists (`0` for an empty family). -/
def minLen {α : Type u} (rss : List (List α)) : Nat :=
  match rss.map List.length with
  | [] => 0
  | n :: ns => ns.foldl min n

/-- Python `zip(*rss)` on row lists: truncates at the shortest input;
`zip()` of an empty family is empty. -/
def pyZip (rss : List (List Row)) : List (List Row) :=
  match rss with
  | [] => []
  | _ :: _ => (List.range (minLen rss)).map (fun i => rss.map (fun rs => rs.getD i []))

/-- Line 159: `[merge(result) for result in zip(*all_results)]`. -/
def mergedResults (chunkResults : List (List Row)) : List Row :=
  (pyZip chunkResults).map merge

/-! ## Sorting rows by `GEO_ID` (Python `sorted` with a key function) -/

/-- Python string comparison: lexicographic by code point. -/
def charListLe : List Char → List Char → Bool
  | [], _ => true
  | _ :: _, [] => false
  | a :: as, b :: bs => if a = b then charListLe as bs else decide (a < b)

/-- Python comparison of two cell values.  Python compares only same-typed
values (mixed comparisons raise `TypeError`); the API returns one type per
column, so any total extension is observationally equivalent.  We order nulls
first, then floats, then strings. -/
def cellLe : Option Value → Option Value → Bool
  | none, _ => true
  | some _, none => false
  | some (Value.float a), some (Value.float b) => decide (a ≤ b)
  | some (Value.float _), some (Value.str _) => true
  | some (Value.str _), some (Value.float _) => false
  | some (Value.str a), some (Value.str b) => charListLe a.toList b.toList

/-- Stable insertion into a sorted list: the new element goes before the first
element not strictly below it. -/
def insertSorted {α : Type u} (le : α → α → Bool) (a : α) : List α → List α
  | [] => [a]
  | b :: l => if le a b then a :: b :: l else b :: insertSorted le a l

/-- Python `sorted`: a stable sort by the given comparison. -/
def pySorted {α : Type u} (le : α → α → Bool) (l : List α) : List α :=
  l.foldr (insertSorted le) []

/-- The `GEO_ID` entry of a row, if present. -/
def rowGeoid? (r : Row) : Option (Option Value) :=
  (r.find? (fun p => p.1 == "GEO_ID")).map (fun p => p.2)

/-- Does the row have a `GEO_ID` key?  (`x['GEO_ID']` raises `KeyError`
otherwise.) -/
def rowHasGeoid (r : Row) : Bool :=
  (r.find? (fun p => p.1 == "GEO_ID")).isSome

/-- Line 205: `sorted(results, key=lambda x: x['GEO_ID'])`. -/
def sortRowsByGeoid (rows : List Row) : List Row :=
  pySorted (fun a b => cellLe ((rowGeoid? a).getD none) ((rowGeoid? b).getD none)) rows

/-- Line 207: `sorted(results, key=lambda x: x.pop('GEO_ID'))` — the key
function also removes `GEO_ID` from every row (it runs once per row). -/
def stripSortRowsByGeoid (rows : List Row) : List Row :=
  ((pySorted (fun a b => cellLe a.1 b.1)
      (rows.map (fun r =>
        ((rowGeoid? r).getD none, r.filter (fun p => !(p.1 == "GEO_ID"))))))).map
    (fun p => p.2)

/-! ## `retry_on_transient_error` (lines 55-71) -/

/-- The one recognized transient-error message (line 62). -/
def transientErrorMessage : String :=
  "There was an error while running your query.  We\x27ve logged the error and we\x27ll correct it ASAP.  Sorry for the inconvenience."

/-- `except CensusException as e: if <transient message> in str(e)`: the
failure must be a `CensusException` (or its subclass) whose message contains
the transient-error string. -/
def isTransientError (e : PyError) : Bool :=
  match censusExceptionMsg e with
  | some m => strContains m transientErrorMessage
  | none => false

/-- The retry loop body: `b` remaining `for`-loop iterations, `k` attempts
already made.  Each loop iteration attempts the call, returns on success,
swallows a transient `CensusException` and re-raises anything else; after the
loop, one final uncaught attempt is made.  Returns the outcome together with
the total number of attempts. -/
def retryCall {α : Type u} (attempt : Nat → Except PyError α) :
    Nat → Nat → Except PyError α × Nat
  | 0, k => (attempt k, k + 1)
  | b + 1, k =>
      match attempt k with
      | Except.ok v => (Except.ok v, k + 1)
      | Except.error e =>
          if isTransientError e then retryCall attempt b (k + 1)
          else (Except.error e, k + 1)

/-- `retry_on_transient_error`: `max(self.retries - 1, 0)` loop iterations
(truncated `Nat` subtraction) followed by a final call. -/
def retryOnTransientError {α : Type u} (retries : Nat) (attempt : Nat → Except PyError α) :
    Except PyError α × Nat :=
  retryCall attempt (retries - 1) 0

/-! ## `supported_years` (lines 41-52) -/

/-- `_years = years if years else self.years`: the decorator's own year tuple
when non-empty, else the client's. -/
def effectiveYears (methodYears clientYears : List Nat) : List Nat :=
  if methodYears.isEmpty then clientYears else methodYears

/-- The `UnsupportedYearException` message (line 49). -/
def unsupportedYearMessage (year : Nat) (ys : List Nat) : String :=
  "Geography is not available in " ++ Nat.repr year ++ ". Available years include " ++
    pyTupleRepr ys

/-- The `supported_years` wrapper: `year = kwargs.get('year', self.default_year)`;
reject a year outside the effective set before calling the wrapped method.
Returns the outcome and how many times the wrapped method ran. -/
def supportedYearsWrapper {α : Type u} (methodYears clientYears : List Nat)
    (defaultYear : Nat) (yearArg : Option Nat) (body : Option Nat → Except PyError α) :
    Except PyError α × Nat :=
  let year := yearArg.getD defaultYear
  let ys := effectiveYears methodYears clientYears
  if year ∈ ys then (body yearArg, 1)
  else (Except.error (PyError.unsupportedYear (unsupportedYearMessage year ys)), 0)

/-! ## Geography selectors and HTTP responses -/

/-- A geography selector dict: the selectors built in `core.py` only ever use
the keys `'for'`, `'in'` and `'regionin'` (`for`/`in` are Lean keywords, hence
the `Clause` suffix). -/
structure Geo : Type where
  forClause : String
  inClause : Option String := none
  regioninClause : Option String := none
  deriving DecidableEq, Repr

/-- An HTTP response as seen by `Client.query`: status code, the JSON body
when `resp.json()` succeeds (the first array element is the header row, the
rest are data rows of strings/nulls), and the raw text. -/
structure ApiResponse : Type where
  status : Nat
  json : Option (List String × List (List (Option String)))
  text : String
  deriving DecidableEq, Repr

/-- The HTTP session as a pure oracle: from the joined `get` parameter, the
`for` clause, the optional `in` clause and the year to a response.  (The `url`
is determined by the year and the dataset; the `key` parameter is constant;
note that `Client.query` never forwards a `'regionin'` entry of the selector.) -/
abbrev ApiOracle := String → String → Option String → Nat → ApiResponse

/-! ## `Client.query` (lines 163-214) -/

/-- `fields += ['GEO_ID']` when `sort_by_geoid` (lines 169-173): the identity
field is appended to the request's field list whenever sorting is on. -/
def queryRequestFields (fields0 : List String) (sort_by_geoid : Bool) : List String :=
  if sort_by_geoid then fields0 ++ ["GEO_ID"] else fields0

/-- The invalid-key marker looked for in a non-JSON 200 body (line 192). -/
def invalidKeyMarker : String := "<title>Invalid Key</title>"

/-- Sequential effectful map over a list in the `Except` monad, stopping at
the first error (the order in which Python runs the per-row / per-chunk
computations). -/
def exceptMapList {α : Type u} {β : Type u} {ε : Type u} (f : α → Except ε β) :
    List α → Except ε (List β)
  | [] => Except.ok []
  | a :: l =>
      match f a with
      | Except.error e => Except.error e
      | Except.ok b =>
          match exceptMapList f l with
          | Except.error e => Except.error e
          | Except.ok bs => Except.ok (b :: bs)

/-- One result row (lines 199-202): the dict comprehension
`{header: (cast(item) if item is not None else None)
  for header, cast, item in zip(headers, types, d)}`
(`zip` truncates at the shortest of the three). -/
def buildRow (headers : List String) (types : List CastKind) (d : List (Option String)) :
    Except PyError Row :=
  ((headers.zip types).zip d).foldlM
    (fun row hc => (castCell hc.1.2 hc.2).map (fun v => dictInsert row hc.1.1 v))
    ([] : Row)

/-- `Client.query` (without the retry decorator; its `fields` argument is
always a list here, so `list_or_str` is the identity).  `ft` is the
`self._field_type` resolution, modelled as an oracle (see `fieldTypeCall`
below for the cache itself). -/
def query (api : ApiOracle) (ft : String → Nat → CastKind) (fields0 : List String)
    (geo : Geo) (yearArg : Option Nat) (defaultYear : Nat) (sort_by_geoid : Bool) :
    Except PyError (List Row) :=
  let year := yearArg.getD defaultYear
  let fields := queryRequestFields fields0 sort_by_geoid
  let resp := api (String.intercalate "," fields) geo.forClause geo.inClause year
  if resp.status = 200 then
    match resp.json with
    | none =>
        if strContains resp.text invalidKeyMarker then
          Except.error (PyError.apiKeyError (pySpaceJoinLines resp.text))
        else Except.error PyError.jsonDecodeError
    | some (headers, data) =>
        let types := headers.map (fun h => ft h year)
        match exceptMapList (buildRow headers types) data with
        | Except.error e => Except.error e
        | Except.ok results =>
            if sort_by_geoid then
              if "GEO_ID" ∈ fields then
                if results.all rowHasGeoid then Except.ok (sortRowsByGeoid results)
                else Except.error (PyError.keyError "GEO_ID")
              else
                if results.all rowHasGeoid then Except.ok (stripSortRowsByGeoid results)
                else Except.error (PyError.keyError "GEO_ID")
            else Except.ok results
  else if resp.status = 204 then Except.ok []
  else Except.error (PyError.censusException resp.text)

/-- `self.query` as called by `get`: the `retry_on_transient_error` decorator
around `query`.  The session oracle is a pure function of the request, so
every attempt sees the same outcome. -/
def queryRetried (api : ApiOracle) (ft : String → Nat → CastKind) (retries : Nat)
    (fields0 : List String) (geo : Geo) (yearArg : Option Nat) (defaultYear : Nat)
    (sort_by_geoid : Bool) : Except PyError (List Row) :=
  (retryOnTransientError retries
    (fun _ => query api ft fields0 geo yearArg defaultYear sort_by_geoid)).1

/-! ## `Client.get` (lines 149-161) -/

/-- Line 156: `sort_by_geoid = len(fields) > 49 and (not year or year > 2009)`.
`not year` is true when `year` is `None` or `0` (Python falsiness). -/
def sortByGeoidFlag (fields : List String) (yearArg : Option Nat) : Bool :=
  decide (49 < fields.length) &&
    (match yearArg with
     | none => true
     | some y => decide (y = 0) || decide (2009 < y))

/-- `Client.get`: chunk the field list into 49-field chunks, run `self.query`
(with its retry wrapper) on each, and merge positionally with
`[merge(result) for result in zip(*all_results)]`.  The `zip(*...)` unpacking
forces every chunk's query in order; the first raised exception propagates.
(Named `Client_get` because plain `get` collides with a library name.) -/
def Client_get (api : ApiOracle) (ft : String → Nat → CastKind) (retries : Nat)
    (defaultYear : Nat) (fields : List String) (geo : Geo) (yearArg : Option Nat) :
    Except PyError (List Row) :=
  let sort_by_geoid := sortByGeoidFlag fields yearArg
  match exceptMapList
      (fun fs => queryRetried api ft retries fs geo yearArg defaultYear sort_by_geoid)
      (pyChunks fields 49) with
  | Except.error e => Except.error e
  | Except.ok chunkResults => Except.ok (mergedResults chunkResults)

/-- The number of `self.query` invocations a (successful) `get` performs:
one per 49-field chunk. -/
def getQueryCalls (fields : List String) : Nat :=
  (pyChunks fields 49).length

/-! ## `Client._field_type` with `@lru_cache(maxsize=1024)` (lines 216-231) -/

/-- A `(field, year)` cache key. -/
abbrev FieldKey := String × Nat

/-- The response of the per-field metadata endpoint
(`.../variables/{field}.json`): status code and, when relevant, the value of
`resp.json().get("predicateType", "string")` (`none` when the key is absent). -/
structure MetaResponse : Type where
  status : Nat
  predicateType : Option String
  deriving DecidableEq, Repr

/-- The body of `_field_type`: on a 200 response look the declared predicate
type up in the `types` table (`none` models the `KeyError` of an unknown
predicate type); on any non-200 response fall back to `str`. -/
def fieldTypeResolve (resp : MetaResponse) : Option CastKind :=
  if resp.status = 200 then typesMap (resp.predicateType.getD "string")
  else some CastKind.castStr

/-- `lru_cache(maxsize=1024)`. -/
def fieldTypeCacheCap : Nat := 1024

/-- One call of the `lru_cache`-wrapped `_field_type`.  The cache is a list of
`(key, coercion)` entries, most recently used first.  A hit moves the entry to
the front and issues no HTTP lookup; a miss issues a lookup, caches a returned
value (dropping the least recently used entry beyond the capacity) and does
not cache a raised exception.  Returns the outcome (`none` = uncached
`KeyError`), the new cache, and whether a metadata lookup was issued. -/
def fieldTypeCall (meta : FieldKey → MetaResponse) (cache : List (FieldKey × CastKind))
    (k : FieldKey) : Option CastKind × List (FieldKey × CastKind) × Bool :=
  match cache.find? (fun e => decide (e.1 = k)) with
  | some e => (some e.2, e :: cache.filter (fun e2 => !decide (e2.1 = k)), false)
  | none =>
      match fieldTypeResolve (meta k) with
      | some c => (some c, ((k, c) :: cache).take fieldTypeCacheCap, true)
      | none => (none, cache, true)

/-- Run a sequence of `_field_type` calls from a given cache state; returns
the final cache and the keys for which an HTTP metadata lookup was issued, in
order. -/
def fieldTypeRun (meta : FieldKey → MetaResponse) :
    List FieldKey → List (FieldKey × CastKind) →
    List (FieldKey × CastKind) × List FieldKey
  | [], cache => (cache, [])
  | k :: ks, cache =>
      let r := fieldTypeCall meta cache k
      let rest := fieldTypeRun meta ks r.2.1
      (rest.1, (if r.2.2 then [k] else []) ++ rest.2)

/-- The metadata lookups issued by a sequence of `_field_type` calls on a
fresh client (empty cache). -/
def fieldTypeLookups (meta : FieldKey → MetaResponse) (ks : List FieldKey) : List FieldKey :=
  (fieldTypeRun meta ks []).2

/-! ## ACS5 dataset configuration and `ACS5Client.state_zipcode` (lines 316-375) -/

def ACS5_default_year : Nat := 2023

def ACS5_years : List Nat :=
  [2023, 2022, 2021, 2020, 2019, 2018, 2017, 2016, 2015, 2014, 2013, 2012, 2011, 2010, 2009]

/-- The `supported_years` tuple on `ACS5Client.state_zipcode` (line 361). -/
def ACS5_state_zipcode_years : List Nat :=
  [2023, 2022, 2021, 2020, 2019, 2018, 2017, 2016, 2015, 2014, 2013, 2012, 2011]

/-- The geography selector built by `ACS5Client.state_zipcode` (lines 362-375):
`year = kwargs.get('year', self.default_year)`; for 2022+ no containment key,
before 2020 an `'in'` key, for 2020-2021 a `'regionin'` key. -/
def ACS5_state_zipcode_geo (yearArg : Option Nat) (state_fips zcta : String) : Geo :=
  let year := yearArg.getD ACS5_default_year
  if 2022 ≤ year then
    { forClause := "zip code tabulation area:" ++ zcta }
  else if year < 2020 then
    { forClause := "zip code tabulation area:" ++ zcta,
      inClause := some ("state:" ++ state_fips) }
  else
    { forClause := "zip code tabulation area:" ++ zcta,
      regioninClause := some ("state:" ++ state_fips) }

/-! ## Concrete fixtures for witnesses and counterexamples -/

/-- A field-type oracle resolving everything to `str`. -/
def ftStr : String → Nat → CastKind := fun _ _ => CastKind.castStr

def geoUS : Geo := { forClause := "us:1" }

/-- A session oracle returning one fixed two-column data row. -/
def oneRowApi : ApiOracle := fun _ _ _ _ =>
  { status := 200,
    json := some (["B01001_001E", "GEO_ID"], [[some "1", some "2"]]),
    text := "" }

/-- A session oracle returning two data rows when the joined field list is at
least 100 characters long and one row otherwise (so the two chunks of a
50-field request see different row counts). -/
def mixedRowsApi : ApiOracle := fun g _ _ _ =>
  if 100 ≤ g.length then
    { status := 200,
      json := some (["B01001_001E", "GEO_ID"],
        [[some "1", some "2"], [some "3", some "4"]]),
      text := "" }
  else
    { status := 200,
      json := some (["B01001_001E", "GEO_ID"], [[some "1", some "2"]]),
      text := "" }

def noContentApi : ApiOracle := fun _ _ _ _ => { status := 204, json := none, text := "" }

def invalidKeyApi : ApiOracle := fun _ _ _ _ =>
  { status := 200, json := none, text := "<html><title>Invalid Key</title></html>" }

def serverErrorApi : ApiOracle := fun _ _ _ _ => { status := 500, json := none, text := "boom" }

/-- Fifty copies of one field name: triggers chunking (the data model imposes
no deduplication on field lists). -/
def fifty_fields : List String := List.replicate 50 "B01001_001E"

/-- The row `oneRowApi`'s response normalizes to (with `ftStr`). -/
def fixtureRow : Row :=
  [("B01001_001E", some (Value.str "1")), ("GEO_ID", some (Value.str "2"))]

/-- The second row of `mixedRowsApi`'s large-request response. -/
def fixtureRow2 : Row :=
  [("B01001_001E", some (Value.str "3")), ("GEO_ID", some (Value.str "4"))]

/-- An attempt sequence failing transiently twice, then succeeding. -/
def c5Attempt : Nat → Except PyError Nat := fun k =>
  if k < 2 then Except.error (PyError.censusException transientErrorMessage)
  else Except.ok 7

/-- A wrapped geography method body that always succeeds. -/
def constOkBody : Option Nat → Except PyError Nat := fun _ => Except.ok 0

/-- A metadata oracle whose lookups all fail with a 404. -/
def meta404 : FieldKey → MetaResponse := fun _ => { status := 404, predicateType := none }

/-- A metadata oracle declaring every field an `int`. -/
def metaInt : FieldKey → MetaResponse := fun _ => { status := 200, predicateType := some "int" }

/-- 1025 distinct `(field, year)` keys followed by the first one again:
enough to evict the first key from the capacity-1024 cache. -/
def c9Keys : List FieldKey :=
  ((List.range 1025).map (fun i => (("f" : String), i))) ++ [(("f" : String), 0)]

/-- A small call sequence with a repeated key, within the cache capacity. -/
def c9SmallKeys : List FieldKey :=
  [("NAME", 2023), ("B01001_001E", 2023), ("NAME", 2023)]

/-! # Helper lemmas -/

theorem pyChunks49_cons {α : Type u} (l : List α) (hl : l ≠ []) :
    pyChunks l 49 = l.take 49 :: pyChunks (l.drop 49) 49 := by
  have hlen : 1 ≤ l.length := List.length_pos.mpr hl
  unfold pyChunks
  rw [List.length_drop]
  have hcount : (l.length + 49 - 1) / 49 = (l.length - 49 + 49 - 1) / 49 + 1 := by omega
  rw [hcount, List.range_succ_eq_map, List.map_cons]
  congr 1
  simp
  intro a _
  have hx : (a + 1) * 49 = 49 + a * 49 := by ring
  rw [hx]

theorem pyChunks49_flatten_aux {α : Type u} :
    ∀ (N : Nat) (l : List α), l.length ≤ N → (pyChunks l 49).flatten = l := by
  intro N
  induction N with
  | zero =>
      intro l h
      have hnil : l = [] := List.length_eq_zero.mp (Nat.le_zero.mp h)
      subst hnil
      simp [pyChunks]
  | succ N ih =>
      intro l h
      by_cases hl : l = []
      · subst hl; simp [pyChunks]
      · rw [pyChunks49_cons l hl, List.flatten_cons,
          ih (l.drop 49) (by rw [List.length_drop]; omega)]
        exact List.take_append_drop 49 l

theorem pyChunks49_flatten {α : Type u} (l : List α) : (pyChunks l 49).flatten = l :=
  pyChunks49_flatten_aux l.length l le_rfl

theorem pyChunks49_length {α : Type u} (l : List α) :
    (pyChunks l 49).length = (l.length + 48) / 49 := by
  simp only [pyChunks, List.length_map, List.length_range]
  omega

theorem foldl_min_le_init (ns : List Nat) : ∀ a : Nat, ns.foldl min a ≤ a := by
  induction ns with
  | nil => intro a; simp
  | cons n t ih => intro a; exact le_trans (ih (min a n)) (min_le_left a n)

theorem foldl_min_le_mem (ns : List Nat) : ∀ a b : Nat, b ∈ ns → ns.foldl min a ≤ b := by
  induction ns with
  | nil => intro a b hb; cases hb
  | cons n t ih =>
      intro a b hb
      rcases List.mem_cons.mp hb with rfl | hb
      · exact le_trans (foldl_min_le_init t _) (min_le_right a b)
      · exact ih _ _ hb

theorem foldl_min_const (ns : List Nat) :
    ∀ a : Nat, (∀ b ∈ ns, b = a) → ns.foldl min a = a := by
  induction ns with
  | nil => intro a _; rfl
  | cons n t ih =>
      intro a h
      have hn : n = a := h n (List.mem_cons_self n t)
      subst hn
      rw [List.foldl_cons, min_self]
      exact ih _ (fun b hb => h b (List.mem_cons_of_mem _ hb))

theorem minLen_le {α : Type u} (rss : List (List α)) (rs : List α) (h : rs ∈ rss) :
    minLen rss ≤ rs.length := by
  cases rss with
  | nil => cases h
  | cons x t =>
      show (t.map List.length).foldl min x.length ≤ rs.length
      rcases List.mem_cons.mp h with rfl | h
      · exact foldl_min_le_init _ _
      · exact foldl_min_le_mem _ _ _ (List.mem_map_of_mem List.length h)

theorem minLen_const {α : Type u} (rss : List (List α)) (r : Nat) (hne : rss ≠ [])
    (h : ∀ rs ∈ rss, rs.length = r) : minLen rss = r := by
  cases rss with
  | nil => exact absurd rfl hne
  | cons x t =>
      have hx : x.length = r := h x (List.mem_cons_self x t)
      show (t.map List.length).foldl min x.length = r
      rw [hx]
      refine foldl_min_const _ _ (fun b hb => ?_)
      rcases List.mem_map.mp hb with ⟨rs, hrs, rfl⟩
      exact h rs (List.mem_cons_of_mem _ hrs)

theorem pyZip_length (rss : List (List Row)) : (pyZip rss).length = minLen rss := by
  cases rss with
  | nil => rfl
  | cons x t =>
      show ((List.range (minLen (x :: t))).map _).length = _
      simp

theorem mergedResults_length (rss : List (List Row)) :
    (mergedResults rss).length = minLen rss := by
  show ((pyZip rss).map merge).length = _
  rw [List.length_map, pyZip_length]

theorem mergedResults_getD (rss : List (List Row)) (i : Nat) (hi : i < minLen rss)
    (hne : rss ≠ []) :
    (mergedResults rss).getD i [] = merge (rss.map (fun rs => rs.getD i [])) := by
  cases rss with
  | nil => exact absurd rfl hne
  | cons x t =>
      have h1 : (pyZip (x :: t))[i]? = some ((x :: t).map (fun rs => rs.getD i [])) := by
        show ((List.range (minLen (x :: t))).map
            (fun j => (x :: t).map (fun rs => rs.getD j [])))[i]? = _
        rw [List.getElem?_map, List.getElem?_range hi]
        rfl
      show ((pyZip (x :: t)).map merge).getD i [] = _
      rw [List.getD_eq_getElem?_getD, List.getElem?_map, h1]
      rfl

theorem exceptMapList_ok_length {α β ε : Type u} (f : α → Except ε β) :
    ∀ (l : List α) (bs : List β), exceptMapList f l = Except.ok bs → bs.length = l.length := by
  intro l
  induction l with
  | nil =>
      intro bs h
      simp only [exceptMapList] at h
      cases h
      rfl
  | cons a t ih =>
      intro bs h
      simp only [exceptMapList] at h
      cases hfa : f a with
      | error e => rw [hfa] at h; cases h
      | ok b =>
          rw [hfa] at h
          cases hrest : exceptMapList f t with
          | error e => rw [hrest] at h; cases h
          | ok bs' =>
              rw [hrest] at h
              cases h
              simp [ih bs' hrest]

theorem retryCall_fst_const {α : Type u} (r : Except PyError α) :
    ∀ b k : Nat, (retryCall (fun _ => r) b k).1 = r := by
  intro b
  induction b with
  | zero => intro k; rfl
  | succ b ih =>
      intro k
      cases hr : r with
      | ok v => simp [retryCall, hr]
      | error e =>
          simp only [retryCall, hr]
          by_cases ht : isTransientError e = true
          · rw [if_pos ht]
            have hk := ih (k + 1)
            rw [hr] at hk
            exact hk
          · rw [if_neg ht]

theorem queryRetried_eq_query (api : ApiOracle) (ft : String → Nat → CastKind)
    (retries : Nat) (fields0 : List String) (geo : Geo) (yearArg : Option Nat)
    (defaultYear : Nat) (sort_by_geoid : Bool) :
    queryRetried api ft retries fields0 geo yearArg defaultYear sort_by_geoid
      = query api ft fields0 geo yearArg defaultYear sort_by_geoid :=
  retryCall_fst_const _ _ _

theorem retryCall_spec {α : Type u} (attempt : Nat → Except PyError α) :
    ∀ b k : Nat,
      (k + 1 ≤ (retryCall attempt b k).2 ∧ (retryCall attempt b k).2 ≤ k + b + 1)
      ∧ (retryCall attempt b k).1 = attempt ((retryCall attempt b k).2 - 1)
      ∧ (∀ j, k ≤ j → j + 1 < (retryCall attempt b k).2 →
          ∃ e, attempt j = Except.error e ∧ isTransientError e = true) := by
  intro b
  induction b with
  | zero =>
      intro k
      simp only [retryCall]
      refine ⟨⟨le_rfl, by omega⟩, by simp, ?_⟩
      intro j hj hlt
      omega
  | succ b ih =>
      intro k
      cases ha : attempt k with
      | ok v =>
          simp only [retryCall, ha]
          refine ⟨⟨le_rfl, by omega⟩, by simp [ha], ?_⟩
          intro j hj hlt
          omega
      | error e =>
          by_cases ht : isTransientError e = true
          · have hred : retryCall attempt (b + 1) k = retryCall attempt b (k + 1) := by
              simp [retryCall, ha, ht]
            rw [hred]
            rcases ih (k + 1) with ⟨⟨hlo, hhi⟩, hres, htr⟩
            refine ⟨⟨by omega, by omega⟩, hres, ?_⟩
            intro j hj hlt
            by_cases hjk : j = k
            · subst hjk; exact ⟨e, ha, ht⟩
            · exact htr j (by omega) hlt
          · have hred : retryCall attempt (b + 1) k = (Except.error e, k + 1) := by
              simp [retryCall, ha, ht]
            rw [hred]
            refine ⟨⟨le_rfl, by omega⟩, by simp [ha], ?_⟩
            intro j hj hlt
            omega

/-! # Claim theorems -/

/-- C6: For every field whose declared predicate type is `"int"`, a raw value
is first parsed as floating point and on parse failure the raw string is
returned unchanged (so raw `"1234"` coerces to `1234.0` and raw `"N"` to
`"N"`); predicate types `"fips-for"`, `"fips-in"` and `"string"` keep the value
as a string; predicate type `"float"` parses as floating point with parse
failure propagating as a hard error; and null values pass through as null
without any coercion. -/
theorem C6_field_typing :
    typesMap "int" = some CastKind.castFloatOrStr
    ∧ float_or_str "1234" = Value.float 1234
    ∧ float_or_str "N" = Value.str "N"
    ∧ (∀ s q, parsePyFloat s = some q →
        applyCast CastKind.castFloatOrStr s = Except.ok (Value.float q))
    ∧ (∀ s, parsePyFloat s = none →
        applyCast CastKind.castFloatOrStr s = Except.ok (Value.str s))
    ∧ typesMap "fips-for" = some CastKind.castStr
    ∧ typesMap "fips-in" = some CastKind.castStr
    ∧ typesMap "string" = some CastKind.castStr
    ∧ (∀ s, applyCast CastKind.castStr s = Except.ok (Value.str s))
    ∧ typesMap "float" = some CastKind.castFloat
    ∧ (∀ s, parsePyFloat s = none →
        applyCast CastKind.castFloat s = Except.error (PyError.floatValueError s))
    ∧ (∀ c, castCell c none = Except.ok none) := by
  refine ⟨by decide, by decide, by decide, ?_, ?_, by decide, by decide, by decide, ?_,
    by decide, ?_, ?_⟩
  · intro s q h; simp [applyCast, float_or_str, h]
  · intro s h; simp [applyCast, float_or_str, h]
  · intro s; rfl
  · intro s h; simp [applyCast, h]
  · intro c; cases c <;> rfl

/-- Witness for C6 at concrete inputs: the coercion attached to `"int"`
applied to `"1234"` and `"N"`, and the hard `float` failure at `"N"`. -/
theorem C6_witness :
    applyCast CastKind.castFloatOrStr "1234" = Except.ok (Value.float 1234)
    ∧ applyCast CastKind.castFloatOrStr "N" = Except.ok (Value.str "N")
    ∧ applyCast CastKind.castFloat "N" = Except.error (PyError.floatValueError "N")
    ∧ castCell CastKind.castFloat none = Except.ok none :=
  ⟨C6_field_typing.2.2.2.1 "1234" 1234 (by decide),
   C6_field_typing.2.2.2.2.1 "N" (by decide),
   C6_field_typing.2.2.2.2.2.2.2.2.2.2.1 "N" (by decide),
   C6_field_typing.2.2.2.2.2.2.2.2.2.2.2 CastKind.castFloat⟩

/-- C7: For every year-gated geography method, calling it with a year outside
the method's declared supported-year set (the decorator's own tuple when
non-empty, else the client's) raises `UnsupportedYearException` before the
underlying call runs, with a message naming the offending year and the
supported set; a year inside the set proceeds to the underlying call. -/
theorem C7_year_guard {α : Type u} (methodYears clientYears : List Nat) (defaultYear : Nat)
    (yearArg : Option Nat) (body : Option Nat → Except PyError α) :
    (yearArg.getD defaultYear ∉ effectiveYears methodYears clientYears →
      supportedYearsWrapper methodYears clientYears defaultYear yearArg body
        = (Except.error (PyError.unsupportedYear
            (unsupportedYearMessage (yearArg.getD defaultYear)
              (effectiveYears methodYears clientYears))), 0))
    ∧ (yearArg.getD defaultYear ∈ effectiveYears methodYears clientYears →
      supportedYearsWrapper methodYears clientYears defaultYear yearArg body
        = (body yearArg, 1)) := by
  constructor
  · intro h; simp [supportedYearsWrapper, h]
  · intro h; simp [supportedYearsWrapper, h]

/-- Witness for C7 on `ACS5Client.state_zipcode`'s year gate: 2008 is rejected
with the exact message before the body runs; 2019 goes through. -/
theorem C7_witness :
    supportedYearsWrapper ACS5_state_zipcode_years ACS5_years ACS5_default_year
        (some 2008) constOkBody
      = (Except.error (PyError.unsupportedYear
          ("Geography is not available in 2008. Available years include " ++
            "(2023, 2022, 2021, 2020, 2019, 2018, 2017, 2016, 2015, 2014, 2013, 2012, 2011)")), 0)
    ∧ supportedYearsWrapper ACS5_state_zipcode_years ACS5_years ACS5_default_year
        (some 2019) constOkBody
      = (Except.ok 0, 1) := by
  constructor
  · rw [(C7_year_guard ACS5_state_zipcode_years ACS5_years ACS5_default_year
      (some 2008) constOkBody).1 (by decide)]
    decide
  · rw [(C7_year_guard ACS5_state_zipcode_years ACS5_years ACS5_default_year
      (some 2019) constOkBody).2 (by decide)]
    rfl

/-- C8: In the geography selector encoded by `ACS5Client.state_zipcode`, the
containment key follows exactly three year bands — before 2020 an `'in'` key
`state:<state_fips>`; in 2020-2021 a `'regionin'` key `state:<state_fips>`;
from 2022 on no containment key — and in every band the `'for'` clause is
`zip code tabulation area:<zcta>`. -/
theorem C8_zcta_bands (year : Nat) (state_fips zcta : String) :
    (ACS5_state_zipcode_geo (some year) state_fips zcta).forClause
        = "zip code tabulation area:" ++ zcta
    ∧ (year < 2020 →
        ACS5_state_zipcode_geo (some year) state_fips zcta
          = { forClause := "zip code tabulation area:" ++ zcta,
              inClause := some ("state:" ++ state_fips) })
    ∧ (2020 ≤ year → year ≤ 2021 →
        ACS5_state_zipcode_geo (some year) state_fips zcta
          = { forClause := "zip code tabulation area:" ++ zcta,
              regioninClause := some ("state:" ++ state_fips) })
    ∧ (2022 ≤ year →
        ACS5_state_zipcode_geo (some year) state_fips zcta
          = { forClause := "zip code tabulation area:" ++ zcta }) := by
  have hd : (some year).getD ACS5_default_year = year := rfl
  simp only [ACS5_state_zipcode_geo, hd]
  refine ⟨?_, ?_, ?_, ?_⟩
  · split_ifs <;> rfl
  · intro h1
    rw [if_neg (by omega), if_pos h1]
  · intro h1 h2
    rw [if_neg (by omega), if_neg (by omega)]
  · intro h1
    rw [if_pos h1]

/-- Witness for C8 at the three bands: years 2019, 2020 and 2023. -/
theorem C8_witness :
    ACS5_state_zipcode_geo (some 2019) "17" "60622"
      = { forClause := "zip code tabulation area:60622", inClause := some "state:17" }
    ∧ ACS5_state_zipcode_geo (some 2020) "17" "60622"
      = { forClause := "zip code tabulation area:60622", regioninClause := some "state:17" }
    ∧ ACS5_state_zipcode_geo (some 2023) "17" "60622"
      = { forClause := "zip code tabulation area:60622" } :=
  ⟨(C8_zcta_bands 2019 "17" "60622").2.1 (by omega),
   (C8_zcta_bands 2020 "17" "60622").2.2.1 (by omega) (by omega),
   (C8_zcta_bands 2023 "17" "60622").2.2.2 (by omega)⟩

/-- C5 (counterexample to the claim as stated): the claim bounds the total
attempts by the configured retry budget, but with `retries = 0` the wrapper
still makes one attempt (`range(max(-1, 0))` runs zero loop iterations and the
final call after the loop is unconditional). -/
theorem C5_counterexample :
    (retryOnTransientError 0 (fun _ => (Except.ok 0 : Except PyError Nat))).2 = 1
    ∧ ¬((retryOnTransientError 0 (fun _ => (Except.ok 0 : Except PyError Nat))).2 ≤ 0) := by
  constructor
  · rfl
  · decide

/-- C5 (amended): the wrapper retries only on a `CensusException` whose
message contains the recognized transient-error string; the total number of
attempts is at least one and at most `max(retries, 1)` (so within the
configured budget whenever `retries ≥ 1`, the default being 3); the outcome is
the last attempt's; and every non-final attempt failed with a transient
`CensusException` — any other failure is final, propagating on first
occurrence. -/
theorem C5_amended_retry_policy {α : Type u} (retries : Nat)
    (attempt : Nat → Except PyError α) :
    (retryOnTransientError retries attempt).2 ≤ max retries 1
    ∧ 1 ≤ (retryOnTransientError retries attempt).2
    ∧ (retryOnTransientError retries attempt).1
        = attempt ((retryOnTransientError retries attempt).2 - 1)
    ∧ (∀ j, j + 1 < (retryOnTransientError retries attempt).2 →
        ∃ e, attempt j = Except.error e ∧ isTransientError e = true) := by
  rcases retryCall_spec attempt (retries - 1) 0 with ⟨⟨hlo, hhi⟩, hres, htr⟩
  refine ⟨?_, hlo, hres, ?_⟩
  · exact le_trans hhi (by omega)
  · intro j hj
    exact htr j (Nat.zero_le j) hj

/-- Witness for C5: with the default `retries = 3` and an attempt sequence
failing transiently twice, the wrapper returns the third attempt's success
after exactly three attempts. -/
theorem C5_witness :
    (retryOnTransientError 3 c5Attempt).2 ≤ max 3 1
    ∧ (retryOnTransientError 3 c5Attempt).1
        = c5Attempt ((retryOnTransientError 3 c5Attempt).2 - 1)
    ∧ (∃ e, c5Attempt 0 = Except.error e ∧ isTransientError e = true)
    ∧ retryOnTransientError 3 c5Attempt = (Except.ok 7, 3) := by
  refine ⟨(C5_amended_retry_policy 3 c5Attempt).1,
    (C5_amended_retry_policy 3 c5Attempt).2.2.1,
    (C5_amended_retry_policy 3 c5Attempt).2.2.2 0 ?_, ?_⟩
  · decide
  · decide

/-- C4: For every query call, an HTTP 204 response yields an empty result
sequence without error; an HTTP 200 response whose body is not valid JSON and
contains the `<title>Invalid Key</title>` marker raises `APIKeyError` rather
than a JSON-decode error; and every other non-200 response raises
`CensusException` carrying the raw response text. -/
theorem C4_status_handling (api : ApiOracle) (ft : String → Nat → CastKind)
    (fields0 : List String) (geo : Geo) (yearArg : Option Nat) (defaultYear : Nat)
    (sort_by_geoid : Bool) (resp : ApiResponse)
    (hresp : api (String.intercalate "," (queryRequestFields fields0 sort_by_geoid))
        geo.forClause geo.inClause (yearArg.getD defaultYear) = resp) :
    (resp.status = 204 →
      query api ft fields0 geo yearArg defaultYear sort_by_geoid = Except.ok [])
    ∧ (resp.status = 200 → resp.json = none →
        strContains resp.text invalidKeyMarker = true →
      query api ft fields0 geo yearArg defaultYear sort_by_geoid
        = Except.error (PyError.apiKeyError (pySpaceJoinLines resp.text)))
    ∧ (resp.status ≠ 200 → resp.status ≠ 204 →
      query api ft fields0 geo yearArg defaultYear sort_by_geoid
        = Except.error (PyError.censusException resp.text)) := by
  refine ⟨?_, ?_, ?_⟩
  · intro h204
    simp only [query, hresp]
    rw [if_neg (by omega), if_pos h204]
  · intro h200 hjson hmark
    simp only [query, hresp]
    rw [if_pos h200]
    simp only [hjson]
    simp [hmark]
  · intro hn200 hn204
    simp only [query, hresp]
    rw [if_neg hn200, if_neg hn204]

/-- Witness for C4 at three concrete responses: a 204, a 200 with the
invalid-key HTML page, and a 500. -/
theorem C4_witness :
    query noContentApi ftStr ["NAME"] geoUS none 2023 false = Except.ok []
    ∧ query invalidKeyApi ftStr ["NAME"] geoUS none 2023 false
        = Except.error (PyError.apiKeyError "<html><title>Invalid Key</title></html>")
    ∧ query serverErrorApi ftStr ["NAME"] geoUS none 2023 false
        = Except.error (PyError.censusException "boom") := by
  refine ⟨?_, ?_, ?_⟩
  · exact (C4_status_handling noContentApi ftStr ["NAME"] geoUS none 2023 false _ rfl).1 rfl
  · have h := (C4_status_handling invalidKeyApi ftStr ["NAME"] geoUS none 2023 false _
      rfl).2.1 rfl rfl (by decide)
    rw [h]
    decide
  · exact (C4_status_handling serverErrorApi ftStr ["NAME"] geoUS none 2023 false _
      rfl).2.2 (by decide) (by decide)

/-- C1 (counterexample to the claim as stated): the empty field list has
length at most 49, yet `get` issues zero underlying queries — `chunks` yields
nothing, so no call to `self.query` is made. -/
theorem C1_counterexample : getQueryCalls ([] : List String) ≠ 1 := by decide

/-- C1 (amended): for every non-empty field list of length at most 49, `get`
issues exactly one underlying query (an empty list issues none); for length
greater than 49 it issues `ceil(n/49)` queries whose field lists, concatenated
in order, equal the original list; and when every chunk's query returns the
same row count, the merged result's row count equals that common count. -/
theorem C1_amended_chunking (api : ApiOracle) (ft : String → Nat → CastKind)
    (retries defaultYear : Nat) (fields : List String) (geo : Geo) (yearArg : Option Nat)
    (r : Nat) (rls : List (List Row))
    (hq : exceptMapList
        (fun fs => queryRetried api ft retries fs geo yearArg defaultYear
          (sortByGeoidFlag fields yearArg))
        (pyChunks fields 49) = Except.ok rls)
    (hr : ∀ rs ∈ rls, rs.length = r) :
    (1 ≤ fields.length → fields.length ≤ 49 → getQueryCalls fields = 1)
    ∧ (49 < fields.length → getQueryCalls fields = (fields.length + 48) / 49)
    ∧ (pyChunks fields 49).flatten = fields
    ∧ Client_get api ft retries defaultYear fields geo yearArg = Except.ok (mergedResults rls)
    ∧ (49 < fields.length → (mergedResults rls).length = r) := by
  have hlen : rls.length = (pyChunks fields 49).length :=
    exceptMapList_ok_length _ _ _ hq
  refine ⟨?_, ?_, pyChunks49_flatten fields, ?_, ?_⟩
  · intro h1 h2
    rw [getQueryCalls, pyChunks49_length]
    omega
  · intro _
    rw [getQueryCalls, pyChunks49_length]
  · simp only [Client_get, hq]
  · intro h
    have hne : rls ≠ [] := by
      intro hnil
      rw [hnil, pyChunks49_length] at hlen
      simp at hlen
      omega
    rw [mergedResults_length, minLen_const rls r hne hr]

/-- Witness for C1: one field gives one query; fifty copies of a field give
two queries whose chunks concatenate back, and with one row per chunk the
merged result has one row. -/
theorem C1_witness :
    getQueryCalls ["B01001_001E"] = 1
    ∧ getQueryCalls fifty_fields = 2
    ∧ (pyChunks fifty_fields 49).flatten = fifty_fields
    ∧ Client_get oneRowApi ftStr 3 2023 fifty_fields geoUS none
        = Except.ok (mergedResults [[fixtureRow], [fixtureRow]])
    ∧ (mergedResults [[fixtureRow], [fixtureRow]]).length = 1 := by
  have h1 := C1_amended_chunking oneRowApi ftStr 3 2023 ["B01001_001E"] geoUS none 1
    [[fixtureRow]] (by decide) (by decide)
  have h2 := C1_amended_chunking oneRowApi ftStr 3 2023 fifty_fields geoUS none 1
    [[fixtureRow], [fixtureRow]] (by decide) (by decide)
  refine ⟨h1.1 (by decide) (by decide), ?_, h2.2.2.1, h2.2.2.2.1,
    h2.2.2.2.2 (by decide)⟩
  rw [h2.2.1 (by decide)]
  decide

/-- C2 (code bug): when a chunked `get` auto-appends `GEO_ID`, the identity
field is NOT stripped before merging: the strip branch
`sorted(results, key=lambda x: x.pop('GEO_ID'))` (line 207) is unreachable,
because the membership test `'GEO_ID' in fields` (line 204) runs after
`GEO_ID` was appended to `fields` (line 171) and is therefore always true.
Concretely, 50 requested fields without `GEO_ID` produce merged rows that all
carry a `GEO_ID` key. -/
theorem C2_geoid_not_stripped :
    ("GEO_ID" ∉ fifty_fields)
    ∧ (∀ fs : List String, "GEO_ID" ∈ queryRequestFields fs true)
    ∧ (Client_get oneRowApi ftStr 3 2023 fifty_fields geoUS none).map
        (fun rows => rows.map rowHasGeoid) = Except.ok [true] := by
  refine ⟨by decide, ?_, by decide⟩
  intro fs
  simp [queryRequestFields]

/-- C3 (counterexample to the claim as stated): with 50 copies of `GEO_ID`
requested — the identity field explicitly present — the claim says no identity
field is appended and no sorting happens, but the code's condition does not
look at the requested fields: the flag is set and the first chunk's request
carries a 50th appended `GEO_ID`. -/
theorem C3_counterexample :
    ("GEO_ID" ∈ List.replicate 50 "GEO_ID")
    ∧ sortByGeoidFlag (List.replicate 50 "GEO_ID") none = true
    ∧ queryRequestFields (List.replicate 49 "GEO_ID")
        (sortByGeoidFlag (List.replicate 50 "GEO_ID") none)
        ≠ List.replicate 49 "GEO_ID"
    ∧ pyChunks (List.replicate 50 "GEO_ID") 49
        = [List.replicate 49 "GEO_ID", ["GEO_ID"]] :=
  ⟨by decide, by decide, by decide, by decide⟩

/-- C3 (amended): for a positive (or absent) year argument, `GEO_ID` is
appended as a 50th field to each chunk's request and each chunk's rows are
sorted by the `GEO_ID` value exactly when chunking was triggered (more than 49
fields) and the year policy requires it (the year argument is unspecified or
greater than 2009) — regardless of whether `GEO_ID` was explicitly requested;
otherwise nothing is appended and rows are kept in the order the API returned
them. -/
theorem C3_amended_sort_condition (fields : List String) (yearArg : Option Nat)
    (hy : ∀ y, yearArg = some y → 1 ≤ y) :
    (sortByGeoidFlag fields yearArg = true ↔
      (49 < fields.length ∧ (yearArg = none ∨ ∃ y, yearArg = some y ∧ 2009 < y)))
    ∧ (∀ fs : List String,
        queryRequestFields fs true = fs ++ ["GEO_ID"]
        ∧ queryRequestFields fs false = fs
        ∧ "GEO_ID" ∈ queryRequestFields fs true)
    ∧ (∀ (api : ApiOracle) (ft : String → Nat → CastKind) (fs : List String) (geo : Geo)
        (defaultYear : Nat) (resp : ApiResponse) (headers : List String)
        (data : List (List (Option String))) (results : List Row),
        api (String.intercalate ","
            (queryRequestFields fs (sortByGeoidFlag fields yearArg)))
          geo.forClause geo.inClause (yearArg.getD defaultYear) = resp →
        resp.status = 200 →
        resp.json = some (headers, data) →
        exceptMapList
          (buildRow headers (headers.map (fun h => ft h (yearArg.getD defaultYear)))) data
          = Except.ok results →
        results.all rowHasGeoid = true →
        query api ft fs geo yearArg defaultYear (sortByGeoidFlag fields yearArg)
          = Except.ok
              (if sortByGeoidFlag fields yearArg then sortRowsByGeoid results
               else results)) := by
  refine ⟨?_, ?_, ?_⟩
  · cases yearArg with
    | none => simp [sortByGeoidFlag]
    | some y =>
        have h0 : ¬(y = 0) := by have := hy y rfl; omega
        simp [sortByGeoidFlag, h0]
  · intro fs
    exact ⟨rfl, rfl, by simp [queryRequestFields]⟩
  · intro api ft fs geo defaultYear resp headers data results hresp h200 hjson hbuild hall
    cases hflag : sortByGeoidFlag fields yearArg with
    | false =>
        rw [hflag] at hresp
        simp only [query, hresp]
        rw [if_pos h200]
        simp only [hjson, hbuild]
        simp
    | true =>
        rw [hflag] at hresp
        simp only [query, hresp]
        rw [if_pos h200]
        simp only [hjson, hbuild]
        have hmem : "GEO_ID" ∈ queryRequestFields fs true := by simp [queryRequestFields]
        rw [if_pos hmem, if_pos hall]
        simp

/-- Witness for C3: fifty fields with no year set the flag; the request gains
an appended `GEO_ID`; and the chunk's query output is the sorted row list. -/
theorem C3_witness :
    sortByGeoidFlag fifty_fields none = true
    ∧ queryRequestFields ["B01001_001E"] true = ["B01001_001E", "GEO_ID"]
    ∧ query oneRowApi ftStr ["B01001_001E"] geoUS none 2023
        (sortByGeoidFlag fifty_fields none)
      = Except.ok (sortRowsByGeoid [fixtureRow]) := by
  have h := C3_amended_sort_condition fifty_fields none (by intro y hy; cases hy)
  have hf : sortByGeoidFlag fifty_fields none = true := h.1.mpr ⟨by decide, Or.inl rfl⟩
  refine ⟨hf, (h.2.1 ["B01001_001E"]).1, ?_⟩
  have h3 := h.2.2 oneRowApi ftStr ["B01001_001E"] geoUS 2023 _
    ["B01001_001E", "GEO_ID"] [[some "1", some "2"]] [fixtureRow]
    rfl rfl rfl (by decide) (by decide)
  rw [h3, hf]
  simp

/-- C10: If the per-chunk queries of a chunked `get` return differing row
counts, `get` raises no error: the merged result silently has length equal to
the minimum chunk row count, rows are paired positionally (each chunk's rows
already sorted by `GEO_ID` inside its query when the flag is on), and rows
beyond the shortest chunk's count are discarded from every other chunk. -/
theorem C10_mismatched_chunks (api : ApiOracle) (ft : String → Nat → CastKind)
    (retries defaultYear : Nat) (fields : List String) (geo : Geo) (yearArg : Option Nat)
    (rls : List (List Row))
    (hq : exceptMapList
        (fun fs => queryRetried api ft retries fs geo yearArg defaultYear
          (sortByGeoidFlag fields yearArg))
        (pyChunks fields 49) = Except.ok rls) :
    Client_get api ft retries defaultYear fields geo yearArg = Except.ok (mergedResults rls)
    ∧ (mergedResults rls).length = minLen rls
    ∧ (∀ rs ∈ rls, minLen rls ≤ rs.length)
    ∧ (∀ i, i < minLen rls → rls ≠ [] →
        (mergedResults rls).getD i [] = merge (rls.map (fun rs => rs.getD i []))) := by
  refine ⟨by simp only [Client_get, hq], mergedResults_length rls, ?_, ?_⟩
  · intro rs hrs
    exact minLen_le rls rs hrs
  · intro i hi hne
    exact mergedResults_getD rls i hi hne

/-- Witness for C10: a 50-field `get` whose first chunk returns two rows and
whose second chunk returns one row succeeds with a single merged row. -/
theorem C10_witness :
    Client_get mixedRowsApi ftStr 3 2023 fifty_fields geoUS none
      = Except.ok (mergedResults [[fixtureRow, fixtureRow2], [fixtureRow]])
    ∧ (mergedResults [[fixtureRow, fixtureRow2], [fixtureRow]]).length
        = minLen [[fixtureRow, fixtureRow2], [fixtureRow]]
    ∧ minLen [[fixtureRow, fixtureRow2], [fixtureRow]] = 1 := by
  have h := C10_mismatched_chunks mixedRowsApi ftStr 3 2023 fifty_fields geoUS none
    [[fixtureRow, fixtureRow2], [fixtureRow]] (by decide)
  exact ⟨h.1, h.2.1, by decide⟩

/-! ## Lemmas about the `lru_cache` model -/

theorem take_append_take {γ : Type u} (a b : List γ) (n : Nat) :
    (a ++ b.take n).take n = (a ++ b).take n := by
  rw [List.take_append_eq_append_take, List.take_append_eq_append_take, List.take_take]
  congr 1
  congr 1
  omega

theorem find?_eq_none_of_take {γ : Type u} (p : γ → Bool) (l : List γ) (n : Nat)
    (h : l.find? p = none) : (l.take n).find? p = none := by
  rw [List.find?_eq_none] at h ⊢
  intro x hx
  exact h x (List.take_subset n l hx)

/-- Running `_field_type` over pairwise-distinct keys that are all absent from
a cache not exceeding capacity and that all resolve to `str`: every call is a
miss, every call issues a lookup, and the cache accumulates the keys
most-recent-first (truncated to capacity). -/
theorem fieldTypeRun_fresh (meta : FieldKey → MetaResponse)
    (hres : ∀ k, fieldTypeResolve (meta k) = some CastKind.castStr) :
    ∀ (ks : List FieldKey) (cache : List (FieldKey × CastKind)),
      ks.Nodup →
      (∀ k ∈ ks, cache.find? (fun e => decide (e.1 = k)) = none) →
      cache.length ≤ fieldTypeCacheCap →
      fieldTypeRun meta ks cache
        = ((ks.reverse.map (fun k => (k, CastKind.castStr)) ++ cache).take
            fieldTypeCacheCap,
           ks) := by
  intro ks
  induction ks with
  | nil =>
      intro cache _ _ hlen
      simp only [fieldTypeRun, List.reverse_nil, List.map_nil, List.nil_append]
      rw [List.take_of_length_le hlen]
  | cons k ks ih =>
      intro cache hnd hfresh hlen
      have hk : cache.find? (fun e => decide (e.1 = k)) = none :=
        hfresh k (List.mem_cons_self k ks)
      have hcall : fieldTypeCall meta cache k
          = (some CastKind.castStr,
             ((k, CastKind.castStr) :: cache).take fieldTypeCacheCap, true) := by
        simp [fieldTypeCall, hk, hres k]
      have hlen' : (((k, CastKind.castStr) :: cache).take fieldTypeCacheCap).length
          ≤ fieldTypeCacheCap := by
        rw [List.length_take]
        omega
      have hfresh' : ∀ k' ∈ ks,
          (((k, CastKind.castStr) :: cache).take fieldTypeCacheCap).find?
            (fun e => decide (e.1 = k')) = none := by
        intro k' hk'
        apply find?_eq_none_of_take
        rw [List.find?_eq_none]
        intro e he
        rcases List.mem_cons.mp he with rfl | he
        · have hne : k ≠ k' := by
            intro hkk
            subst hkk
            exact (List.nodup_cons.mp hnd).1 hk'
          simp [hne]
        · exact (List.find?_eq_none.mp (hfresh k' (List.mem_cons_of_mem _ hk'))) e he
      have hrec := ih (((k, CastKind.castStr) :: cache).take fieldTypeCacheCap)
        (List.nodup_cons.mp hnd).2 hfresh' hlen'
      simp only [fieldTypeRun, hcall, hrec, Prod.mk.injEq]
      constructor
      · rw [take_append_take]
        congr 1
        rw [List.reverse_cons, List.map_append]
        simp [List.append_assoc]
      · simp

theorem fieldTypeRun_append (meta : FieldKey → MetaResponse) :
    ∀ (xs ys : List FieldKey) (cache : List (FieldKey × CastKind)),
      fieldTypeRun meta (xs ++ ys) cache
        = ((fieldTypeRun meta ys (fieldTypeRun meta xs cache).1).1,
           (fieldTypeRun meta xs cache).2
             ++ (fieldTypeRun meta ys (fieldTypeRun meta xs cache).1).2) := by
  intro xs
  induction xs with
  | nil => intro ys cache; simp [fieldTypeRun]
  | cons x xs ih =>
      intro ys cache
      simp only [List.cons_append, fieldTypeRun, List.append_eq, ih, Prod.mk.injEq]
      constructor
      · trivial
      · rw [List.append_assoc]

theorem zero_not_mem_reverse_take : ∀ n : Nat, 0 ∉ (List.range (n + 1)).reverse.take n := by
  intro n
  induction n with
  | zero => simp
  | succ m ih =>
      intro hmem
      rw [List.range_succ, List.reverse_append, List.reverse_singleton,
        List.singleton_append, List.take_succ_cons] at hmem
      rcases List.mem_cons.mp hmem with h0 | h0
      · omega
      · exact ih h0

/-- C9 (counterexample to the claim as stated): `_field_type` is cached with
`lru_cache(maxsize=1024)`, not for the client's lifetime.  After resolving
1025 distinct `(field, year)` pairs from an empty cache, the least recently
used pair — the first one — has been evicted, and calling `_field_type` on it
again issues a second metadata lookup for that pair. -/
theorem C9_counterexample :
    (fieldTypeLookups meta404 c9Keys).count (("f" : String), 0) = 2
    ∧ ¬((fieldTypeLookups meta404 c9Keys).count (("f" : String), 0) ≤ 1) := by
  have hres : ∀ k, fieldTypeResolve (meta404 k) = some CastKind.castStr := fun _ => rfl
  have hnodup : ((List.range 1025).map (fun i => ((("f" : String), i) : FieldKey))).Nodup := by
    refine List.Nodup.map ?_ (List.nodup_range 1025)
    intro a b hab
    simpa using congrArg Prod.snd hab
  have hrunbase := fieldTypeRun_fresh meta404 hres
    ((List.range 1025).map (fun i => ((("f" : String), i) : FieldKey))) []
    hnodup (fun k _ => rfl) (by simp [fieldTypeCacheCap])
  have hbase1 : (fieldTypeRun meta404
      ((List.range 1025).map (fun i => ((("f" : String), i) : FieldKey))) []).1
      = ((((List.range 1025).map (fun i => ((("f" : String), i) : FieldKey))).reverse.map
          (fun k => (k, CastKind.castStr)) ++ []).take fieldTypeCacheCap) := by
    rw [hrunbase]
  have hbase2 : (fieldTypeRun meta404
      ((List.range 1025).map (fun i => ((("f" : String), i) : FieldKey))) []).2
      = (List.range 1025).map (fun i => ((("f" : String), i) : FieldKey)) := by
    rw [hrunbase]
  have hcacheB :
      ((((List.range 1025).map (fun i => ((("f" : String), i) : FieldKey))).reverse.map
          (fun k => (k, CastKind.castStr)) ++ []).take fieldTypeCacheCap)
        = ((List.range 1025).reverse.take 1024).map
            (fun i => (((("f" : String), i) : FieldKey), CastKind.castStr)) := by
    rw [List.append_nil, ← List.map_reverse, List.map_map, ← List.map_take]
    rfl
  have hfreshB : (((List.range 1025).reverse.take 1024).map
        (fun i => (((("f" : String), i) : FieldKey), CastKind.castStr))).find?
        (fun e => decide (e.1 = (("f" : String), 0))) = none := by
    rw [List.find?_eq_none]
    intro e he
    rcases List.mem_map.mp he with ⟨i, hi, rfl⟩
    have hi0 : i ≠ 0 := by
      intro h0
      subst h0
      exact zero_not_mem_reverse_take 1024 hi
    simp [hi0]
  have hlenB : (((List.range 1025).reverse.take 1024).map
        (fun i => (((("f" : String), i) : FieldKey), CastKind.castStr))).length
        ≤ fieldTypeCacheCap := by
    rw [List.length_map, List.length_take]
    simp [fieldTypeCacheCap]
  have hrun1 := fieldTypeRun_fresh meta404 hres [(("f" : String), 0)]
    (((List.range 1025).reverse.take 1024).map
      (fun i => (((("f" : String), i) : FieldKey), CastKind.castStr)))
    (List.nodup_singleton _)
    (by
      intro k hk
      rcases List.mem_singleton.mp hk with rfl
      exact hfreshB)
    hlenB
  have happ := fieldTypeRun_append meta404
    ((List.range 1025).map (fun i => ((("f" : String), i) : FieldKey)))
    [(("f" : String), 0)] []
  have hlk : fieldTypeLookups meta404 c9Keys
      = ((List.range 1025).map (fun i => ((("f" : String), i) : FieldKey)))
        ++ [(("f" : String), 0)] := by
    show (fieldTypeRun meta404
        (((List.range 1025).map (fun i => ((("f" : String), i) : FieldKey)))
          ++ [(("f" : String), 0)]) []).2
      = _
    rw [happ, hbase2, hbase1, hcacheB, hrun1]
  have hcount : (fieldTypeLookups meta404 c9Keys).count (("f" : String), 0) = 2 := by
    rw [hlk]
    decide
  exact ⟨hcount, by omega⟩

/-- While at most `fieldTypeCacheCap` distinct keys are ever used (all
resolving), no cache entry is ever evicted: the lookup trace never repeats a
key and never names an already-cached key. -/
theorem fieldTypeRun_nodup (meta : FieldKey → MetaResponse) (A : Finset FieldKey)
    (hA : A.card ≤ fieldTypeCacheCap) :
    ∀ (ks : List FieldKey) (cache : List (FieldKey × CastKind)),
      (∀ k ∈ ks, (fieldTypeResolve (meta k)).isSome = true) →
      (∀ k ∈ ks, k ∈ A) →
      (∀ e ∈ cache, e.1 ∈ A) →
      (cache.map Prod.fst).Nodup →
      (fieldTypeRun meta ks cache).2.Nodup
      ∧ (∀ k' ∈ (fieldTypeRun meta ks cache).2, k' ∉ cache.map Prod.fst) := by
  intro ks
  induction ks with
  | nil =>
      intro cache _ _ _ _
      constructor
      · simp [fieldTypeRun]
      · intro k' hk'
        simp [fieldTypeRun] at hk'
  | cons k ks ih =>
      intro cache hres hksA hcA hnd
      cases hfind : cache.find? (fun e => decide (e.1 = k)) with
      | some e =>
          have hp := @List.find?_some (FieldKey × CastKind)
            (fun e2 => decide (e2.1 = k)) e cache hfind
          have hek : e.1 = k := of_decide_eq_true hp
          have hcall : fieldTypeCall meta cache k
              = (some e.2, e :: cache.filter (fun e2 => !decide (e2.1 = k)), false) := by
            simp [fieldTypeCall, hfind]
          have hcA' : ∀ e2 ∈ e :: cache.filter (fun e2 => !decide (e2.1 = k)),
              e2.1 ∈ A := by
            intro e2 he2
            rcases List.mem_cons.mp he2 with heq | he2
            · rw [heq]
              exact hcA e (List.mem_of_find?_eq_some hfind)
            · exact hcA e2 (List.mem_of_mem_filter he2)
          have hnd' : ((e :: cache.filter (fun e2 => !decide (e2.1 = k))).map
              Prod.fst).Nodup := by
            rw [List.map_cons, List.nodup_cons]
            constructor
            · intro hmem
              rcases List.mem_map.mp hmem with ⟨e2, he2, heq⟩
              have h1 := List.mem_filter.mp he2
              have h2 : e2.1 = k := by rw [heq, hek]
              rw [h2] at h1
              simp at h1
            · exact List.Nodup.sublist ((List.filter_sublist cache).map Prod.fst) hnd
          have hrec := ih (e :: cache.filter (fun e2 => !decide (e2.1 = k)))
            (fun k' h => hres k' (List.mem_cons_of_mem _ h))
            (fun k' h => hksA k' (List.mem_cons_of_mem _ h)) hcA' hnd'
          have hrun : fieldTypeRun meta (k :: ks) cache
              = ((fieldTypeRun meta ks (e :: cache.filter (fun e2 => !decide (e2.1 = k)))).1,
                 (fieldTypeRun meta ks
                   (e :: cache.filter (fun e2 => !decide (e2.1 = k)))).2) := by
            simp [fieldTypeRun, hcall]
          rw [hrun]
          refine ⟨hrec.1, ?_⟩
          intro k' hk' hmem
          apply hrec.2 k' hk'
          rcases List.mem_map.mp hmem with ⟨en, hen, rfl⟩
          by_cases hxk : en.1 = k
          · rw [List.map_cons]
            exact List.mem_cons.mpr (Or.inl (hxk.trans hek.symm))
          · rw [List.map_cons]
            refine List.mem_cons.mpr (Or.inr ?_)
            exact List.mem_map.mpr ⟨en, List.mem_filter.mpr ⟨hen, by simp [hxk]⟩, rfl⟩
      | none =>
          have hres0 := hres k (List.mem_cons_self k ks)
          obtain ⟨c, hc⟩ := Option.isSome_iff_exists.mp hres0
          have hcall : fieldTypeCall meta cache k
              = (some c, ((k, c) :: cache).take fieldTypeCacheCap, true) := by
            simp [fieldTypeCall, hfind, hc]
          have hkfresh : k ∉ cache.map Prod.fst := by
            intro hmem
            rcases List.mem_map.mp hmem with ⟨en, hen, heq⟩
            exact (List.find?_eq_none.mp hfind en hen) (decide_eq_true heq)
          have hnd0 : (k :: cache.map Prod.fst).Nodup :=
            List.nodup_cons.mpr ⟨hkfresh, hnd⟩
          have hsubA : ∀ x ∈ k :: cache.map Prod.fst, x ∈ A := by
            intro x hx
            rcases List.mem_cons.mp hx with heq | hx
            · rw [heq]
              exact hksA k (List.mem_cons_self k ks)
            · rcases List.mem_map.mp hx with ⟨en, hen, rfl⟩
              exact hcA en hen
          have hlen : ((k, c) :: cache).length ≤ fieldTypeCacheCap := by
            have h1 : ((k :: cache.map Prod.fst).toFinset : Finset FieldKey) ⊆ A :=
              fun x hx => hsubA x (List.mem_toFinset.mp hx)
            have h2 : (k :: cache.map Prod.fst).length ≤ A.card := by
              rw [← List.toFinset_card_of_nodup hnd0]
              exact Finset.card_le_card h1
            have h3 : ((k, c) :: cache).length = (k :: cache.map Prod.fst).length := by
              simp
            omega
          have htake : ((k, c) :: cache).take fieldTypeCacheCap = (k, c) :: cache :=
            List.take_of_length_le hlen
          have hcA' : ∀ e2 ∈ (k, c) :: cache, e2.1 ∈ A := by
            intro e2 he2
            rcases List.mem_cons.mp he2 with heq | he2
            · rw [heq]
              exact hksA k (List.mem_cons_self k ks)
            · exact hcA e2 he2
          have hnd' : (((k, c) :: cache).map Prod.fst).Nodup := by
            rw [List.map_cons]
            exact hnd0
          have hrec := ih ((k, c) :: cache)
            (fun k' h => hres k' (List.mem_cons_of_mem _ h))
            (fun k' h => hksA k' (List.mem_cons_of_mem _ h)) hcA' hnd'
          have hrun : fieldTypeRun meta (k :: ks) cache
              = ((fieldTypeRun meta ks ((k, c) :: cache)).1,
                 k :: (fieldTypeRun meta ks ((k, c) :: cache)).2) := by
            simp [fieldTypeRun, hcall, htake]
          rw [hrun]
          constructor
          · rw [List.nodup_cons]
            refine ⟨?_, hrec.1⟩
            intro hk'
            exact hrec.2 k hk' (by rw [List.map_cons]; exact List.mem_cons_self _ _)
          · intro k' hk'
            rcases List.mem_cons.mp hk' with rfl | hk'
            · exact hkfresh
            · intro hmem
              apply hrec.2 k' hk'
              rw [List.map_cons]
              exact List.mem_cons.mpr (Or.inr hmem)

/-- C9 (amended): for every field and year, a non-200 metadata response makes
the field's type resolve to the string coercion without failing; resolutions
are cached per `(field, year)` in a least-recently-used cache of capacity
1024, so as long as at most 1024 distinct resolving pairs are used in the
client's lifetime, at most one metadata lookup is issued per pair (beyond
that, least-recently-used entries are evicted and can be looked up again). -/
theorem C9_amended_cache (meta : FieldKey → MetaResponse) (ks : List FieldKey)
    (hres : ∀ k ∈ ks, (fieldTypeResolve (meta k)).isSome = true)
    (hcard : ks.toFinset.card ≤ fieldTypeCacheCap) :
    (fieldTypeLookups meta ks).Nodup
    ∧ (∀ resp : MetaResponse, resp.status ≠ 200 →
        fieldTypeResolve resp = some CastKind.castStr) := by
  constructor
  · exact (fieldTypeRun_nodup meta ks.toFinset hcard ks [] hres
      (fun k h => List.mem_toFinset.mpr h)
      (fun e he => absurd he (List.not_mem_nil e)) (by simp)).1
  · intro resp h
    simp [fieldTypeResolve, h]

/-- Witness for C9: three calls with a repeated key (within capacity) issue no
duplicate lookup, and a 404 metadata response resolves to the string type. -/
theorem C9_witness :
    (fieldTypeLookups metaInt c9SmallKeys).Nodup
    ∧ fieldTypeResolve { status := 404, predicateType := none } = some CastKind.castStr := by
  have h := C9_amended_cache metaInt c9SmallKeys (by decide) (by decide)
  exact ⟨h.1, h.2 _ (by decide)⟩
